import Mathlib

/-!
Verification of the `bartapi` package (go-bart, `src/api/api.go`): a minimal
HTTP client for the BART transit API.  The client state, URL construction,
`Pull` control flow and the charset-aware XML `Decode` helper are embedded
shallowly; machine effects (the network, the response body stream) are
explicit oracles.
-/

/-- Base URL for the API endpoint (constant `URL` in `api.go`). -/
def URL : String := "http://api.bart.gov/api/bsa.aspx"

/-- Public key provided by BART for unregistered use (constant `PublicAPIKey`). -/
def PublicAPIKey : String := "MW9S-E7SL-26DU-VV8V"

/-- The BART API client: a key and a base URL (struct `Client` in `api.go`). -/
structure Client where
  key : String
  baseURL : String
deriving DecidableEq

/-- Constructor `New`: stores the key and initialises `baseURL` to `URL`. -/
def New (key : String) : Client :=
  { key := key, baseURL := URL }

/-- Method `Key`: returns the stored key.  The Go method takes a pointer
receiver and writes nothing, so the embedding passes the state through. -/
def Client.Key (c : Client) : Client × String :=
  (c, c.key)

/-- Method `BaseURL`: returns the stored base URL (state passed through). -/
def Client.BaseURL (c : Client) : Client × String :=
  (c, c.baseURL)

/-- Method `SetBaseURL`: overwrites the base URL, touching nothing else. -/
def Client.SetBaseURL (c : Client) (u : String) : Client :=
  { c with baseURL := u }

/-- The request target string built by `Pull` (lines 63 to 69 of `api.go`):
a buffer initialised with `Sprintf("%v?cmd=%v&key=%v", c.baseURL, cmd, c.key)`
and extended with `Sprintf("&%v=%v", k, v)` for each entry of the query map,
in iteration order.  The `%v` verb on a string inserts it verbatim. -/
def requestURL (c : Client) (cmd : String) (query : List (String × String)) : String :=
  query.foldl (fun acc kv => acc ++ ("&" ++ kv.1 ++ "=" ++ kv.2))
    (c.baseURL ++ "?cmd=" ++ cmd ++ "&key=" ++ c.key)

/-- Query-string suffix as the spec words it: for each entry, the literal
`&`, the key, `=`, the value — each piece verbatim, no percent-encoding. -/
def queryStringSpec : List (String × String) → String
  | [] => ""
  | kv :: rest => "&" ++ kv.1 ++ "=" ++ kv.2 ++ queryStringSpec rest

deriving instance DecidableEq for Except

/-- Outcome of reading the response body (`ioutil.ReadAll`) plus the status
code; the status is carried so theorems can show it is never inspected. -/
structure HTTPResponse where
  statusCode : Nat
  bodyRead : Except String (List Nat)
deriving DecidableEq

/-- The process-wide HTTP stack, as an oracle: `http.Get` on a target string
either fails or yields a response. -/
def Net : Type := String → Except String HTTPResponse

/-- Method `Pull` (lines 62 to 86 of `api.go`): build the target string,
issue one GET, propagate a transport error with nil bytes, otherwise read
the whole body, propagate a read error with nil bytes, otherwise return the
body with a nil error.  The returned `Client` is the receiver's state after
the call; the result pair mirrors Go's `([]byte, error)` with `none` for
`nil`. -/
def Client.Pull (c : Client) (net : Net) (cmd : String)
    (query : List (String × String)) :
    Client × Option (List Nat) × Option String :=
  match net (requestURL c cmd query) with
  | .error e => (c, none, some e)
  | .ok resp =>
    match resp.bodyRead with
    | .error e => (c, none, some e)
    | .ok body => (c, some body, none)

/-- One step of the public interface, for stating invariants over arbitrary
interleavings of the exposed operations. -/
inductive Op where
  | setBaseURL (u : String)
  | baseURL
  | key
  | pull (net : Net) (cmd : String) (query : List (String × String))

/-- The client state after one public operation. -/
def applyOp (c : Client) : Op → Client
  | .setBaseURL u => c.SetBaseURL u
  | .baseURL => c.BaseURL.1
  | .key => c.Key.1
  | .pull net cmd q => (c.Pull net cmd q).1

lemma applyOp_key (c : Client) (op : Op) : (applyOp c op).key = c.key := by
  cases op with
  | setBaseURL u => rfl
  | baseURL => rfl
  | key => rfl
  | pull net cmd q =>
    simp only [applyOp, Client.Pull]
    cases net (requestURL c cmd q) with
    | error e => rfl
    | ok resp =>
      cases h : resp.bodyRead with
      | error e => simp [h]
      | ok body => simp [h]

lemma foldl_applyOp_key (c : Client) (ops : List Op) :
    (ops.foldl applyOp c).key = c.key := by
  induction ops generalizing c with
  | nil => rfl
  | cons op rest ih => rw [List.foldl_cons, ih, applyOp_key]

lemma foldl_queryStringSpec (q : List (String × String)) (init : String) :
    q.foldl (fun acc kv => acc ++ ("&" ++ kv.1 ++ "=" ++ kv.2)) init
      = init ++ queryStringSpec q := by
  induction q generalizing init with
  | nil => simp [queryStringSpec]
  | cons kv rest ih =>
    rw [List.foldl_cons, ih, queryStringSpec]
    simp [String.append_assoc]

/-- C1: `Pull` issues its GET against exactly the concatenation of the base
URL, the literal `?cmd=`, the command, the literal `&key=`, the key, and,
for each query entry in iteration order, `&`, key, `=`, value — every piece
verbatim, with no percent-encoding; moreover `Pull` consults the network
only at that one target string. -/
theorem pull_target_is_verbatim_concatenation (c : Client) (cmd : String)
    (q : List (String × String)) :
    requestURL c cmd q
        = c.baseURL ++ "?cmd=" ++ cmd ++ "&key=" ++ c.key ++ queryStringSpec q
      ∧ ∀ net net' : Net,
        net (requestURL c cmd q) = net' (requestURL c cmd q) →
        c.Pull net cmd q = c.Pull net' cmd q := by
  constructor
  · rw [requestURL, foldl_queryStringSpec]
  · intro net net' h
    simp [Client.Pull, h]

def netW : Net := fun _ => .error "boom"

def netW2 : Net := fun s =>
  if s = requestURL (New "K") "c" [("a", "b")] then .error "boom"
  else .ok ⟨200, .ok []⟩

theorem pull_target_witness :
    requestURL (New "K") "c" [("a", "b")]
        = (New "K").baseURL ++ "?cmd=" ++ "c" ++ "&key=" ++ (New "K").key
            ++ queryStringSpec [("a", "b")]
      ∧ (New "K").Pull netW "c" [("a", "b")] = (New "K").Pull netW2 "c" [("a", "b")] :=
  ⟨(pull_target_is_verbatim_concatenation (New "K") "c" [("a", "b")]).1,
   (pull_target_is_verbatim_concatenation (New "K") "c" [("a", "b")]).2 netW netW2
     (by decide)⟩

/-- C2: whenever the body of the response is fully readable, `Pull` returns
the whole body with a nil error, whatever the status code (404 and 500
included): the status field is never inspected. -/
theorem pull_returns_body_ignoring_status (c : Client) (net : Net) (cmd : String)
    (q : List (String × String)) (resp : HTTPResponse) (body : List Nat)
    (hnet : net (requestURL c cmd q) = .ok resp)
    (hread : resp.bodyRead = .ok body) :
    c.Pull net cmd q = (c, some body, none) := by
  simp [Client.Pull, hnet, hread]

def net404 : Net := fun _ => .ok ⟨404, .ok [110, 111]⟩

theorem pull_returns_body_witness :
    (New "k").Pull net404 "cmd" [] = (New "k", some [110, 111], none) :=
  pull_returns_body_ignoring_status (New "k") net404 "cmd" []
    ⟨404, .ok [110, 111]⟩ [110, 111] rfl rfl

/-- C3: a failing GET makes `Pull` return that error unchanged with nil
bytes, without retrying, and a failing body read likewise returns the read
error with nil bytes. -/
theorem pull_propagates_errors (c : Client) (net : Net) (cmd : String)
    (q : List (String × String)) (e : String)
    (h : net (requestURL c cmd q) = .error e
      ∨ ∃ resp, net (requestURL c cmd q) = .ok resp ∧ resp.bodyRead = .error e) :
    c.Pull net cmd q = (c, none, some e) := by
  rcases h with h | ⟨resp, h1, h2⟩
  · simp [Client.Pull, h]
  · simp [Client.Pull, h1, h2]

def netFail : Net := fun _ => .error "dial tcp: lookup failed"

def netBadBody : Net := fun _ => .ok ⟨200, .error "unexpected EOF"⟩

theorem pull_propagates_errors_witness :
    (New "k").Pull netFail "c" [] = (New "k", none, some "dial tcp: lookup failed")
      ∧ (New "k").Pull netBadBody "c" [] = (New "k", none, some "unexpected EOF") :=
  ⟨pull_propagates_errors (New "k") netFail "c" [] "dial tcp: lookup failed" (Or.inl rfl),
   pull_propagates_errors (New "k") netBadBody "c" [] "unexpected EOF"
     (Or.inr ⟨⟨200, .error "unexpected EOF"⟩, rfl, rfl⟩)⟩

/-- C6: `New(k).Key()` returns exactly `k`, for every string `k` including
the empty one, and still does after any interleaving of the public
operations (the empty interleaving gives the immediate case). -/
theorem key_returns_stored_key (k : String) (ops : List Op) :
    ((ops.foldl applyOp (New k)).Key).2 = k := by
  simp [Client.Key, foldl_applyOp_key, New]

/-- C7: `SetBaseURL` followed immediately by `BaseURL` returns exactly the
string that was set, for every string including the empty and malformed
ones; `SetBaseURL` is total, so it validates nothing and never fails. -/
theorem setBaseURL_then_baseURL (c : Client) (u : String) :
    ((c.SetBaseURL u).BaseURL).2 = u := rfl

/-- C8: a client fresh from `New k` has its base URL initialised to the
default advisory endpoint constant. -/
theorem new_baseURL_default (k : String) :
    ((New k).BaseURL).2 = "http://api.bart.gov/api/bsa.aspx" := rfl

/-- C9: the key is immutable after construction: every exposed operation
(`Key`, `BaseURL`, `SetBaseURL`, `Pull`) leaves the key field unchanged. -/
theorem key_immutable (c : Client) (op : Op) : (applyOp c op).key = c.key :=
  applyOp_key c op

/-- C10: `Pull` never modifies the client state, whatever the network
outcome, and the accessors `Key` and `BaseURL` modify no state either. -/
theorem pull_and_accessors_preserve_state (c : Client) (net : Net) (cmd : String)
    (q : List (String × String)) :
    (c.Pull net cmd q).1 = c ∧ (c.Key).1 = c ∧ (c.BaseURL).1 = c := by
  refine ⟨?_, rfl, rfl⟩
  simp only [Client.Pull]
  rcases net (requestURL c cmd q) with e | resp
  · rfl
  · rcases hr : resp.bodyRead with e | body <;> simp [hr]

def strBytes (s : String) : List Nat := s.toList.map Char.toNat

/-- Modelled from the spec: the XML parser behind `Decode` lives in external
libraries (the standard XML decoder and the `charset` conversion layer), so
the decode pipeline below follows the spec's words.  This helper scans the
prolog bytes up to the closing marker, failing on a truncated prolog. -/
def splitAtPIEnd : List Nat → Option (List Nat × List Nat)
  | [] => none
  | [_] => none
  | a :: b :: rest =>
    if a = 63 && b = 62 then some ([], rest)
    else
      match splitAtPIEnd (b :: rest) with
      | some (ins, r) => some (a :: ins, r)
      | none => none

def dropAfter (pat : List Nat) : List Nat → Option (List Nat)
  | [] => none
  | x :: rest =>
    if pat.isPrefixOf (x :: rest) then some (List.drop pat.length (x :: rest))
    else dropAfter pat rest

def takeUntilByte (c : Nat) : List Nat → Option (List Nat × List Nat)
  | [] => none
  | x :: rest =>
    if x = c then some ([], rest)
    else
      match takeUntilByte c rest with
      | some (a, r) => some (x :: a, r)
      | none => none

def bytesToString (bs : List Nat) : String := String.mk (bs.map Char.ofNat)

/-- Modelled from the spec: the character encoding declared by the prolog
(the `encoding` attribute, a quoted name). -/
def extractEncoding (inside : List Nat) : Option String :=
  match dropAfter (strBytes "encoding=\"") inside with
  | none => none
  | some r =>
    match takeUntilByte 34 r with
    | none => none
    | some (name, _) => some (bytesToString name)

/-- Modelled from the spec: inspect the document's declared character
encoding from the XML prolog; return it (when present) and the bytes that
follow the prolog, or `none` on a truncated prolog. -/
def splitProlog (bs : List Nat) : Option (Option String × List Nat) :=
  if (strBytes "<?xml").isPrefixOf bs then
    match splitAtPIEnd (List.drop 5 bs) with
    | none => none
    | some (inside, rest) => some (extractEncoding inside, rest)
  else some (none, bs)

def isCont (b : Nat) : Bool := 128 ≤ b && b < 192

/-- Modelled from the spec: the default UTF-8 byte decoding, rejecting
malformed sequences, overlong forms and surrogate code points. -/
def utf8DecodeAux : Nat → List Nat → Option (List Char)
  | _, [] => some []
  | 0, _ :: _ => none
  | fuel + 1, b :: rest =>
    if b < 128 then
      (utf8DecodeAux fuel rest).map (fun cs => Char.ofNat b :: cs)
    else if 192 ≤ b && b < 224 then
      match rest with
      | b1 :: rest2 =>
        if isCont b1 then
          let cp := (b - 192) * 64 + (b1 - 128)
          if 128 ≤ cp then (utf8DecodeAux fuel rest2).map (fun cs => Char.ofNat cp :: cs)
          else none
        else none
      | [] => none
    else if 224 ≤ b && b < 240 then
      match rest with
      | b1 :: b2 :: rest2 =>
        if isCont b1 && isCont b2 then
          let cp := (b - 224) * 4096 + (b1 - 128) * 64 + (b2 - 128)
          if 2048 ≤ cp && !(55296 ≤ cp && cp < 57344) then
            (utf8DecodeAux fuel rest2).map (fun cs => Char.ofNat cp :: cs)
          else none
        else none
      | _ => none
    else if 240 ≤ b && b < 245 then
      match rest with
      | b1 :: b2 :: b3 :: rest2 =>
        if isCont b1 && isCont b2 && isCont b3 then
          let cp := (b - 240) * 262144 + (b1 - 128) * 4096 + (b2 - 128) * 64 + (b3 - 128)
          if 65536 ≤ cp && cp < 1114112 then
            (utf8DecodeAux fuel rest2).map (fun cs => Char.ofNat cp :: cs)
          else none
        else none
      | _ => none
    else none

def utf8Decode (bs : List Nat) : Option (List Char) := utf8DecodeAux bs.length bs

/-- Modelled from the spec: the Latin-1 transcoding of the charset layer —
every byte maps to the Unicode code point of the same value. -/
def latin1Decode (bs : List Nat) : List Char := bs.map Char.ofNat

/-- Modelled from the spec: the charset-conversion layer keyed by the
declared encoding name (`charset.NewReader` with the loaded data tables);
the default UTF-8 plus a representative legacy Latin-1 charset. -/
def charsetConv (name : String) : Option (List Nat → Option (List Char)) :=
  if name = "utf-8" then some utf8Decode
  else if name = "iso-8859-1" then some (fun bs => some (latin1Decode bs))
  else none

def skipWs : List Char → List Char
  | [] => []
  | c :: rest =>
    if c = ' ' || c = '\n' || c = '\t' || c = '\r' then skipWs rest else c :: rest

def readUntilChar (c : Char) : List Char → Option (List Char × List Char)
  | [] => none
  | x :: rest =>
    if x = c then some ([], rest)
    else
      match readUntilChar c rest with
      | some (a, r) => some (x :: a, r)
      | none => none

/-- Modelled from the spec: an opening tag of the streaming XML parse. -/
def parseOpen (l : List Char) : Option (String × List Char) :=
  match l with
  | '<' :: rest =>
    match readUntilChar '>' rest with
    | some (name, r) =>
      if !name.isEmpty && name.all (fun c => c ≠ '/' && c ≠ '<' && c ≠ ' ') then
        some (String.mk name, r)
      else none
    | none => none
  | _ => none

/-- Modelled from the spec: one mapped field — a child element holding
character data, closed by its matching end tag. -/
def parseChild (l : List Char) : Option ((String × String) × List Char) :=
  match parseOpen l with
  | none => none
  | some (name, r) =>
    match readUntilChar '<' r with
    | none => none
    | some (text, r2) =>
      match r2 with
      | '/' :: r3 =>
        if (name.toList ++ ['>']).isPrefixOf r3 then
          some ((name, String.mk text), List.drop (name.toList.length + 1) r3)
        else none
      | _ => none

/-- Modelled from the spec: the sequence of child elements of the root,
ending right before the root's end tag. -/
def parseChildren : Nat → List Char → Option (List (String × String) × List Char)
  | 0, _ => none
  | fuel + 1, l =>
    match skipWs l with
    | [] => none
    | '<' :: '/' :: r => some ([], '<' :: '/' :: r)
    | l2 =>
      match parseChild l2 with
      | none => none
      | some (kv, r) =>
        match parseChildren fuel r with
        | some (kvs, r2) => some (kv :: kvs, r2)
        | none => none

/-- Modelled from the spec: the structural XML-to-value mapping — one root
element whose child elements are the mapped fields (extra elements are
simply part of the returned mapping, so unrecognised ones are ignored by
the caller's target). -/
def parseDoc (l : List Char) : Option (List (String × String)) :=
  match parseOpen (skipWs l) with
  | none => none
  | some (root, r) =>
    match parseChildren (r.length + 1) r with
    | none => none
    | some (kvs, r2) =>
      match r2 with
      | '<' :: '/' :: r3 =>
        if (root.toList ++ ['>']).isPrefixOf r3
            && (skipWs (List.drop (root.toList.length + 1) r3)).isEmpty then
          some kvs
        else none
      | _ => none

/-- Modelled from the spec: `Decode` — inspect the declared encoding,
transcode through the charset layer (default UTF-8), then parse the XML
into the mapped fields; empty input, malformed XML, an unrecognised
charset or invalid bytes are errors. -/
def Decode (bs : List Nat) : Except String (List (String × String)) :=
  match splitProlog bs with
  | none => .error "XML syntax error: unexpected EOF"
  | some (encOpt, rest) =>
    let enc := encOpt.getD "utf-8"
    match charsetConv enc with
    | none => .error ("xml: charset " ++ enc ++ " not supported")
    | some conv =>
      match conv rest with
      | none => .error "xml: invalid byte sequence"
      | some chars =>
        match parseDoc chars with
        | none => .error "XML syntax error"
        | some fields => .ok fields

/-- C4: when the prolog declares a charset other than UTF-8 that the charset
layer recognises, and the bytes form a document valid in that charset (for
the recognised Latin-1 charset every byte sequence is valid, so in
particular ones that are not valid UTF-8), `Decode` succeeds and returns
the fields carrying the transcoded Unicode text. -/
theorem decode_non_utf8_charset (bs rest : List Nat) (enc : String)
    (fields : List (String × String))
    (hpro : splitProlog bs = some (some enc, rest))
    (hne : enc ≠ "utf-8")
    (hrec : (charsetConv enc).isSome)
    (hparse : parseDoc (latin1Decode rest) = some fields) :
    Decode bs = .ok fields := by
  have henc : enc = "iso-8859-1" := by
    by_contra hn
    simp [charsetConv, hne, hn] at hrec
  subst henc
  simp [Decode, hpro, charsetConv, hparse]

def exLatin1Bytes : List Nat :=
  strBytes "<?xml version=\"1.0\" encoding=\"iso-8859-1\"?>"
    ++ strBytes "<root><k>caf" ++ [233] ++ strBytes "</k></root>"

def exLatin1Rest : List Nat :=
  strBytes "<root><k>caf" ++ [233] ++ strBytes "</k></root>"

theorem decode_non_utf8_witness :
    Decode exLatin1Bytes = .ok [("k", "café")] :=
  decode_non_utf8_charset exLatin1Bytes exLatin1Rest "iso-8859-1" [("k", "café")]
    (by decide) (by decide) (by decide) (by decide)

/-- C5: `Decode` on the empty input stream returns an error — an XML parse
failure for the missing document — never a nil error that would leave the
target silently untouched. -/
theorem decode_empty_errors : Decode [] = .error "XML syntax error" := rfl
